import Mathlib

/-!
Verification of the `noty` note-taking tool (src/noty.py).

The store is a JSON file holding a list of note objects
`{ text, timestamp, id }`.  Every operation is Load → mutate → Save.
We embed the operations of `NotyManager` as pure Lean functions: the
current wall-clock time becomes an explicit string parameter, the
interactive confirmation of `clear_all_notes` becomes an explicit list
of response strings, and the backing file becomes an explicit value of
type `FileContent` (absent, present-but-unparseable, or a parsed JSON
value) — mirroring the fallible parse step of `load_notes`.
-/

namespace Noty

/-- A note record, as built in `add_note`:
`{'text': text, 'timestamp': ..., 'id': next_id}`. -/
structure Note where
  text : String
  timestamp : String
  id : Int
deriving DecidableEq, Repr

/-- JSON values, as far as the store format needs them
(ids are integers, texts and timestamps strings). -/
inductive Json where
  | null : Json
  | bool (b : Bool) : Json
  | num (n : Int) : Json
  | str (s : String) : Json
  | arr (xs : List Json) : Json
  | obj (fields : List (String × Json)) : Json

/-- Exceptions that `json.load(f)` can raise besides
`json.JSONDecodeError`, and that the `except` clause of `load_notes`
does not catch. -/
inductive PyError where
  | unicodeDecodeError : PyError
  | recursionError : PyError
deriving DecidableEq, Repr

/-- The state of the backing file `~/.noty_notes.json`: it may be
absent, or present with content on which reading and parsing either
raises `json.JSONDecodeError` (`invalid`: text that is not valid
JSON), raises `UnicodeDecodeError` before the parser even runs
(`undecodable`: bytes such as `0xFF` that the default text encoding
rejects), raises `RecursionError` (`deeplyNested`: e.g. one hundred
thousand nested arrays, past the parser's recursion limit), or
succeeds with a JSON value (`valid`). -/
inductive FileContent where
  | absent : FileContent
  | invalid : FileContent
  | undecodable : FileContent
  | deeplyNested : FileContent
  | valid (v : Json) : FileContent

/-- `load_notes`: a missing file returns `[]`, and the `except` clause
catches exactly `json.JSONDecodeError` and `FileNotFoundError`, also
returning `[]`.  Any other exception raised while reading or parsing —
`UnicodeDecodeError` on undecodable bytes, `RecursionError` on deeply
nested content — propagates to the caller, modelled as `Except.error`.
On success the decoded JSON value is returned as-is. -/
def load_notes : FileContent → Except PyError Json
  | .absent => .ok (.arr [])
  | .invalid => .ok (.arr [])
  | .undecodable => .error .unicodeDecodeError
  | .deeplyNested => .error .recursionError
  | .valid v => .ok v

/-- Encoding of one note as the JSON object `json.dump` writes for the
dict built in `add_note` (key order: text, timestamp, id). -/
def encodeNote (n : Note) : Json :=
  .obj [("text", .str n.text), ("timestamp", .str n.timestamp), ("id", .num n.id)]

/-- `save_notes`: `json.dump(notes, f)` overwrites the file with the
array of note objects. -/
def save_notes (notes : List Note) : FileContent :=
  .valid (.arr (notes.map encodeNote))

/-- Dictionary lookup `fields['key']` on a JSON object's field list. -/
def jget (fields : List (String × Json)) (k : String) : Option Json :=
  (fields.find? (fun p => p.1 = k)).map (fun p => p.2)

/-- Reading one note object back into a record (the `note['text']`,
`note['timestamp']`, `note['id']` accesses). -/
def decodeNote : Json → Option Note
  | .obj fs =>
    match jget fs "text", jget fs "timestamp", jget fs "id" with
    | some (.str t), some (.str ts), some (.num i) => some ⟨t, ts, i⟩
    | _, _, _ => none
  | _ => none

/-- Reading a JSON array element-wise back into note records. -/
def decodeNoteList : List Json → Option (List Note)
  | [] => some []
  | j :: rest =>
    match decodeNote j, decodeNoteList rest with
    | some n, some ns => some (n :: ns)
    | _, _ => none

/-- Reading a JSON value as the stored sequence of notes. -/
def decodeNotes : Json → Option (List Note)
  | .arr xs => decodeNoteList xs
  | _ => none

/-- Python's `max` over a (nonempty) list: fold of the binary max.
The `[]` case is never reached by `add_note` (it tests emptiness first). -/
def maxList : List Int → Int
  | [] => 0
  | x :: xs => xs.foldl max x

/-- The ID computation of `add_note`: 1 for an empty store, otherwise
`max(existing_ids) + 1`. -/
def next_id (notes : List Note) : Int :=
  if notes.isEmpty then 1 else maxList (notes.map Note.id) + 1

/-- `add_note text` at timestamp `ts`: append the new note and save. -/
def add_note (notes : List Note) (text ts : String) : List Note :=
  notes ++ [⟨text, ts, next_id notes⟩]

/-- Digit runs as accepted by Python's `int()`: one or more decimal
digits, with single underscores allowed between digits. -/
def udigits : List Char → Bool
  | [] => false
  | [c] => c.isDigit
  | c :: '_' :: rest => c.isDigit && udigits rest
  | c :: rest => c.isDigit && udigits rest

/-- Numeric value of such a digit run (underscores ignored). -/
def uval (cs : List Char) : Nat :=
  (cs.filter (fun c => c ≠ '_')).foldl (fun a c => a * 10 + (c.toNat - 48)) 0

/-- Python's `str.strip()` with no argument: remove whitespace from
both ends (character-list level). -/
def pyStrip (cs : List Char) : List Char :=
  (((cs.dropWhile Char.isWhitespace).reverse).dropWhile Char.isWhitespace).reverse

/-- Python's `str.lower()` on ASCII (character-list level). -/
def pyLower (cs : List Char) : List Char :=
  cs.map fun c =>
    if 'A' ≤ c ∧ c ≤ 'Z' then Char.ofNat (c.toNat + 32) else c

/-- Model of Python's `int(s)` on a string: surrounding whitespace is
stripped, an optional single sign precedes the digits; anything else
raises `ValueError`, modelled as `none`. -/
def pyIntParse (s : String) : Option Int :=
  match pyStrip s.toList with
  | '+' :: rest => if udigits rest then some (Int.ofNat (uval rest)) else none
  | '-' :: rest => if udigits rest then some (-(Int.ofNat (uval rest))) else none
  | cs => if udigits cs then some (Int.ofNat (uval cs)) else none

/-- Outcome reported by `remove_note`. -/
inductive RemoveResult where
  | invalidId (raw : String) : RemoveResult
  | notFound (id : Int) : RemoveResult
  | removed (note : Note) : RemoveResult
deriving DecidableEq, Repr

/-- The body of `remove_note` after `int()` succeeded: linear scan for
the first note whose `id` matches, then `notes.remove(note_to_remove)`
(removal of the first equal element) and save.  The `Bool` records
whether `save_notes` ran. -/
def removeById (notes : List Note) (nid : Int) : RemoveResult × List Note × Bool :=
  match notes.find? (fun n => n.id = nid) with
  | none => (.notFound nid, notes, false)
  | some n => (.removed n, notes.erase n, true)

/-- `remove_note raw`: parse the ID, report `ValueError` as an invalid
ID without touching the store, otherwise remove by ID. -/
def remove_note (notes : List Note) (raw : String) : RemoveResult × List Note × Bool :=
  match pyIntParse raw with
  | none => (.invalidId raw, notes, false)
  | some nid => removeById notes nid

/-- The renumbering loop of `fix_duplicate_ids`:
`for i, note in enumerate(notes): note['id'] = i + 1`, started at
index `i`. -/
def fixFrom : Nat → List Note → List Note
  | _, [] => []
  | i, n :: rest => { n with id := (i : Int) + 1 } :: fixFrom (i + 1) rest

/-- `fix_duplicate_ids` on the loaded sequence: each note's `id`
becomes its 1-based position. -/
def fix_duplicate_ids (notes : List Note) : List Note :=
  fixFrom 0 notes

/-- `fix_duplicate_ids` including its persistence effect: an empty
store returns before saving; otherwise the renumbered sequence is
saved.  The `Bool` records whether `save_notes` ran. -/
def fix_duplicate_ids_op (notes : List Note) : List Note × Bool :=
  if notes.isEmpty then (notes, false) else (fix_duplicate_ids notes, true)

/-- The per-note block written by the export loop:
`#id - timestamp`, the text, then a 40-dash separator and a blank
line. -/
def noteBlock (n : Note) : String :=
  "#" ++ toString n.id ++ " - " ++ n.timestamp ++ "\n" ++
    n.text ++ "\n" ++ String.mk (List.replicate 40 '-') ++ "\n\n"

/-- `export_notes`: with an empty store nothing is written (`none`);
otherwise the destination filename (synthesized from the compact
timestamp `nowCompact` when no filename is given) and the file content
are produced.  `nowReadable` is `datetime.now()` formatted
`YYYY-MM-DD HH:MM:SS`, `nowCompact` is it formatted
`YYYYMMDD_HHMMSS`.  The content is accumulated exactly as the
sequence of `f.write` calls does. -/
def export_notes (notes : List Note) (nowReadable nowCompact : String)
    (filename : Option String) : Option (String × String) :=
  if notes.isEmpty then none
  else
    let fname :=
      match filename with
      | none => "noty_export_" ++ nowCompact ++ ".txt"
      | some f => f
    let header :=
      "NOTY - Exported Notes\n" ++
        String.mk (List.replicate 50 '=') ++ "\n" ++
        "Exported on: " ++ nowReadable ++ "\n" ++
        "Total notes: " ++ toString notes.length ++ "\n\n"
    some (fname, notes.foldl (fun acc n => acc ++ noteBlock n) header)

/-- How a run of `clear_all_notes` ends.  `pending` marks a run whose
given responses were all unrecognized: the loop is still prompting and
nothing was cleared. -/
inductive ClearOutcome where
  | noNotes : ClearOutcome
  | cleared : ClearOutcome
  | cancelled : ClearOutcome
  | pending : ClearOutcome
deriving DecidableEq, Repr

/-- The confirmation loop of `clear_all_notes`: each response is
lowered and stripped; `y`/`yes` saves `[]` and stops, `n`/`no`/empty
cancels, anything else prompts again. -/
def clearLoop (notes : List Note) : List String → List Note × ClearOutcome
  | [] => (notes, .pending)
  | r :: rest =>
    let resp := pyStrip (pyLower r.toList)
    if resp = ['y'] ∨ resp = ['y', 'e', 's'] then ([], .cleared)
    else if resp = ['n'] ∨ resp = ['n', 'o'] ∨ resp = [] then (notes, .cancelled)
    else clearLoop notes rest

/-- `clear_all_notes`, with the interactive responses made explicit:
an empty store returns before any prompt; otherwise the confirmation
loop decides the final stored sequence. -/
def clear_all_notes (notes : List Note) (responses : List String) :
    List Note × ClearOutcome :=
  if notes.isEmpty then (notes, .noNotes) else clearLoop notes responses

/-! ### Helper lemmas -/

lemma le_foldl_max_init (l : List Int) (a : Int) : a ≤ l.foldl max a := by
  induction l generalizing a with
  | nil => exact le_refl a
  | cons x xs ih => exact le_trans (le_max_left a x) (ih (max a x))

lemma le_foldl_max_of_mem {l : List Int} {x : Int} (hx : x ∈ l) (a : Int) :
    x ≤ l.foldl max a := by
  induction l generalizing a with
  | nil => cases hx
  | cons y ys ih =>
    rcases List.mem_cons.mp hx with h | h
    · subst h
      exact le_trans (le_max_right a x) (le_foldl_max_init ys (max a x))
    · exact ih h (max a y)

lemma le_maxList {l : List Int} {x : Int} (hx : x ∈ l) : x ≤ maxList l := by
  cases l with
  | nil => cases hx
  | cons a xs =>
    rcases List.mem_cons.mp hx with h | h
    · subst h
      exact le_foldl_max_init xs x
    · exact le_foldl_max_of_mem h a

lemma next_id_gt {notes : List Note} {n : Note} (hn : n ∈ notes) :
    n.id < next_id notes := by
  have hne : notes.isEmpty = false := by
    cases notes with
    | nil => cases hn
    | cons a l => rfl
  have hle : n.id ≤ maxList (notes.map Note.id) :=
    le_maxList (List.mem_map_of_mem Note.id hn)
  simp only [next_id, hne, Bool.false_eq_true, if_false]
  omega

/-! ### C1 -/

/-- C1 (counterexample): starting from an empty store, add two notes,
remove the note with ID 2, then add again: the removed ID 2 is reused
by the new note, so deleted IDs can be reused by Add. -/
theorem add_reuses_deleted_id_cex :
    (remove_note (add_note (add_note [] "a" "t1") "b" "t2") "2").1 =
      .removed ⟨"b", "t2", 2⟩ ∧
    add_note (remove_note (add_note (add_note [] "a" "t1") "b" "t2") "2").2.1
        "c" "t3" =
      [⟨"a", "t1", 1⟩, ⟨"c", "t3", 2⟩] := by
  constructor <;> decide

/-- C1 (amended): Add appends a note whose ID is 1 on an empty store
and the maximum stored ID plus 1 otherwise, and that ID is strictly
greater than every currently stored ID — so a currently stored ID is
never duplicated, and a deleted ID is not reused while any note with
an ID at least as large remains stored (removing the maximum ID, or
emptying the store, can lead to reuse). -/
theorem add_note_id_spec (notes : List Note) (text ts : String) :
    add_note notes text ts = notes ++ [⟨text, ts, next_id notes⟩] ∧
    (notes = [] → next_id notes = 1) ∧
    (notes ≠ [] → next_id notes = maxList (notes.map Note.id) + 1) ∧
    (∀ n ∈ notes, n.id < next_id notes) := by
  refine ⟨rfl, ?_, ?_, ?_⟩
  · intro h
    subst h
    rfl
  · intro h
    have hne : notes.isEmpty = false := by
      cases notes with
      | nil => exact absurd rfl h
      | cons a l => rfl
    simp [next_id, hne]
  · intro n hn
    exact next_id_gt hn

/-- C1 (witness for `add_note_id_spec`): instantiation on a concrete
two-note store with an ID gap. -/
theorem add_note_id_spec_witness :
    next_id [⟨"a", "t", 3⟩, ⟨"b", "u", 7⟩] = 8 ∧
    add_note [⟨"a", "t", 3⟩, ⟨"b", "u", 7⟩] "c" "v" =
      [⟨"a", "t", 3⟩, ⟨"b", "u", 7⟩, ⟨"c", "v", 8⟩] := by
  have h := add_note_id_spec [⟨"a", "t", 3⟩, ⟨"b", "u", 7⟩] "c" "v"
  have h3 := h.2.2.1 (by simp)
  have h8 : next_id [⟨"a", "t", 3⟩, ⟨"b", "u", 7⟩] = 8 := by
    rw [h3]; decide
  refine ⟨h8, ?_⟩
  rw [h.1, h8]
  rfl

/-! ### C3 -/

/-- C3: when the given ID string does not parse as an integer,
`remove_note` reports an invalid ID, returns the store unchanged and
does not save. -/
theorem remove_note_invalid_id (notes : List Note) (raw : String)
    (h : pyIntParse raw = none) :
    remove_note notes raw = (.invalidId raw, notes, false) := by
  simp [remove_note, h]

/-- C3 (witness for `remove_note_invalid_id`): the string
`abc` does not parse, so removal aborts without mutation. -/
theorem remove_note_invalid_id_witness :
    pyIntParse "abc" = none ∧
    remove_note [⟨"a", "t", 1⟩] "abc" =
      (.invalidId "abc", [⟨"a", "t", 1⟩], false) :=
  ⟨by decide, remove_note_invalid_id [⟨"a", "t", 1⟩] "abc" (by decide)⟩

/-! ### C2 -/

/-- C2 (counterexample): with duplicate IDs in the store (possible
before a fix), removing ID 1 removes only the first match, so a note
with ID 1 is still stored afterwards, contradicting the claim that
the id is absent after a successful Remove. -/
theorem remove_leaves_duplicate_id_cex :
    Note.mk "a" "t" 1 ∈ ([⟨"a", "t", 1⟩, ⟨"b", "t", 1⟩] : List Note) ∧
    removeById [⟨"a", "t", 1⟩, ⟨"b", "t", 1⟩] 1 =
      (.removed ⟨"a", "t", 1⟩, [⟨"b", "t", 1⟩], true) ∧
    Note.mk "b" "t" 1 ∈ (removeById [⟨"a", "t", 1⟩, ⟨"b", "t", 1⟩] 1).2.1 ∧
    (Note.mk "b" "t" 1).id = 1 := by
  refine ⟨by decide, by decide, by decide, rfl⟩

/-- C2 (amended): provided the stored ids are pairwise distinct (the
store's persisted invariant), removing an existing id shrinks the
count by exactly 1, saves, and leaves no note with that id; removing a
non-existent id reports NotFound, returns the sequence unchanged and
does not save.  With duplicate ids only the first match is removed and
the id can remain. -/
theorem remove_note_correct (notes : List Note) (nid : Int)
    (hnd : (notes.map Note.id).Nodup) :
    ((∃ n ∈ notes, n.id = nid) →
      (removeById notes nid).2.1.length + 1 = notes.length ∧
      (removeById notes nid).2.2 = true ∧
      ∀ m ∈ (removeById notes nid).2.1, m.id ≠ nid) ∧
    ((∀ n ∈ notes, n.id ≠ nid) →
      removeById notes nid = (.notFound nid, notes, false)) := by
  constructor
  · rintro ⟨n, hn, hid⟩
    obtain ⟨m, hm⟩ : ∃ m, notes.find? (fun x => x.id = nid) = some m := by
      cases hfind : notes.find? (fun x => x.id = nid) with
      | none =>
        rw [List.find?_eq_none] at hfind
        exact absurd (by simpa using hid) (hfind n hn)
      | some m => exact ⟨m, rfl⟩
    have hmem : m ∈ notes := List.mem_of_find?_eq_some hm
    have hmid : m.id = nid := by simpa using List.find?_some hm
    have hres : removeById notes nid = (.removed m, notes.erase m, true) := by
      simp [removeById, hm]
    rw [hres]
    refine ⟨?_, rfl, ?_⟩
    · simpa using List.length_erase_add_one hmem
    · intro x hx hxid
      have hxm : x ≠ m ∧ x ∈ notes :=
        (List.Nodup.mem_erase_iff (List.Nodup.of_map Note.id hnd)).mp hx
      exact hxm.1 (List.inj_on_of_nodup_map hnd hxm.2 hmem (by rw [hxid, hmid]))
  · intro h
    have hfind : notes.find? (fun x => x.id = nid) = none := by
      rw [List.find?_eq_none]
      intro x hx
      simpa using h x hx
    simp [removeById, hfind]

/-- C2 (witness for `remove_note_correct`): a distinct-id store of two
notes; removing id 1 leaves one note and no note with id 1, removing
id 3 is a NotFound no-op. -/
theorem remove_note_correct_witness :
    (removeById [⟨"a", "t", 1⟩, ⟨"b", "u", 2⟩] 1).2.1.length + 1 = 2 ∧
    (removeById [⟨"a", "t", 1⟩, ⟨"b", "u", 2⟩] 1).2.2 = true ∧
    removeById [⟨"a", "t", 1⟩, ⟨"b", "u", 2⟩] 3 =
      (.notFound 3, [⟨"a", "t", 1⟩, ⟨"b", "u", 2⟩], false) := by
  have h1 := (remove_note_correct [⟨"a", "t", 1⟩, ⟨"b", "u", 2⟩] 1
    (by decide)).1 ⟨⟨"a", "t", 1⟩, by decide, rfl⟩
  have h3 := (remove_note_correct [⟨"a", "t", 1⟩, ⟨"b", "u", 2⟩] 3
    (by decide)).2 (by decide)
  exact ⟨h1.1, h1.2.1, h3⟩

/-! ### C4 -/

/-- C4 (counterexample): not every unparseable backing-file content is
recovered as the empty sequence.  A file of bytes the text encoding
rejects (such as a lone `0xFF` byte) raises `UnicodeDecodeError`, and
a file of deeply nested arrays raises `RecursionError`; neither is
caught by the `except (json.JSONDecodeError, FileNotFoundError)`
clause, so Load propagates the exception instead of returning the
empty sequence. -/
theorem load_notes_raises_cex :
    load_notes FileContent.undecodable = Except.error PyError.unicodeDecodeError ∧
    load_notes FileContent.deeplyNested = Except.error PyError.recursionError :=
  ⟨rfl, rfl⟩

/-- C4 (amended): loading a missing backing file, or one whose
content fails to parse with `json.JSONDecodeError`, yields the empty
sequence rather than an error; but content whose read or parse raises
any other exception — undecodable bytes (`UnicodeDecodeError`), deep
nesting past the recursion limit (`RecursionError`) — makes Load raise
instead of returning the empty sequence. -/
theorem load_notes_recovery_scope :
    load_notes FileContent.absent = Except.ok (Json.arr []) ∧
    load_notes FileContent.invalid = Except.ok (Json.arr []) ∧
    load_notes FileContent.undecodable = Except.error PyError.unicodeDecodeError ∧
    load_notes FileContent.deeplyNested = Except.error PyError.recursionError :=
  ⟨rfl, rfl, rfl, rfl⟩

/-! ### C5 and C7: renumbering lemmas -/

lemma fixFrom_length (l : List Note) : ∀ i, (fixFrom i l).length = l.length := by
  induction l with
  | nil => intro i; rfl
  | cons n rest ih =>
    intro i
    simp [fixFrom, ih (i + 1)]

lemma fixFrom_idem (l : List Note) : ∀ i, fixFrom i (fixFrom i l) = fixFrom i l := by
  induction l with
  | nil => intro i; rfl
  | cons n rest ih =>
    intro i
    simp [fixFrom, ih (i + 1)]

lemma fixFrom_map_text (l : List Note) :
    ∀ i, (fixFrom i l).map Note.text = l.map Note.text := by
  induction l with
  | nil => intro i; rfl
  | cons n rest ih =>
    intro i
    simp [fixFrom, ih (i + 1)]

lemma fixFrom_map_timestamp (l : List Note) :
    ∀ i, (fixFrom i l).map Note.timestamp = l.map Note.timestamp := by
  induction l with
  | nil => intro i; rfl
  | cons n rest ih =>
    intro i
    simp [fixFrom, ih (i + 1)]

lemma fixFrom_map_id (l : List Note) :
    ∀ i, (fixFrom i l).map Note.id =
      (List.range' (i + 1) l.length).map (fun k : Nat => (k : Int)) := by
  induction l with
  | nil => intro i; rfl
  | cons n rest ih =>
    intro i
    simp only [fixFrom, List.map_cons, ih (i + 1), List.length_cons,
      List.range'_succ]
    congr 2

/-! ### C5 -/

/-- C5: renumbering is idempotent — applying `fix_duplicate_ids`
twice yields the same stored sequence as applying it once, both at the
level of the pure renumbering and of the operation including its
empty-store early return. -/
theorem fix_duplicate_ids_idempotent :
    (∀ notes : List Note,
      fix_duplicate_ids (fix_duplicate_ids notes) = fix_duplicate_ids notes) ∧
    (∀ notes : List Note,
      (fix_duplicate_ids_op (fix_duplicate_ids_op notes).1).1 =
        (fix_duplicate_ids_op notes).1) := by
  have hpure : ∀ notes : List Note,
      fix_duplicate_ids (fix_duplicate_ids notes) = fix_duplicate_ids notes :=
    fun notes => fixFrom_idem notes 0
  refine ⟨hpure, ?_⟩
  intro notes
  cases notes with
  | nil => rfl
  | cons n rest =>
    have h1 : fix_duplicate_ids_op (n :: rest) =
        (fix_duplicate_ids (n :: rest), true) := rfl
    rw [h1]
    have h2 : fix_duplicate_ids (n :: rest) =
        { n with id := 1 } :: fixFrom 1 rest := rfl
    rw [h2]
    have h3 : fix_duplicate_ids_op ({ n with id := 1 } :: fixFrom 1 rest) =
        (fix_duplicate_ids ({ n with id := 1 } :: fixFrom 1 rest), true) := rfl
    rw [h3, ← h2, hpure]

/-! ### C7 -/

/-- C7: on a non-empty store, `fix_duplicate_ids` saves the renumbered
sequence; the result has the same length, the i-th id becomes i + 1
(the 1-based position), and the texts and timestamps at every position
are unchanged — only the id field is mutated, in storage order. -/
theorem fix_duplicate_ids_frame (notes : List Note) (hne : notes ≠ []) :
    fix_duplicate_ids_op notes = (fix_duplicate_ids notes, true) ∧
    (fix_duplicate_ids notes).length = notes.length ∧
    (fix_duplicate_ids notes).map Note.id =
      (List.range' 1 notes.length).map (fun k : Nat => (k : Int)) ∧
    (fix_duplicate_ids notes).map Note.text = notes.map Note.text ∧
    (fix_duplicate_ids notes).map Note.timestamp = notes.map Note.timestamp := by
  have hemp : notes.isEmpty = false := by
    cases notes with
    | nil => exact absurd rfl hne
    | cons a l => rfl
  exact ⟨by simp [fix_duplicate_ids_op, hemp], fixFrom_length notes 0,
    fixFrom_map_id notes 0,
    fixFrom_map_text notes 0, fixFrom_map_timestamp notes 0⟩

/-- C7 (witness for `fix_duplicate_ids_frame`): a concrete three-note
store with duplicate and gapped ids is renumbered to 1, 2, 3 with
texts and timestamps intact. -/
theorem fix_duplicate_ids_frame_witness :
    fix_duplicate_ids_op [⟨"a", "t1", 5⟩, ⟨"b", "t2", 5⟩, ⟨"c", "t3", 9⟩] =
      ([⟨"a", "t1", 1⟩, ⟨"b", "t2", 2⟩, ⟨"c", "t3", 3⟩], true) := by
  have h := fix_duplicate_ids_frame
    [⟨"a", "t1", 5⟩, ⟨"b", "t2", 5⟩, ⟨"c", "t3", 9⟩] (by simp)
  rw [h.1]
  decide

/-! ### C6 -/

lemma decodeNote_encodeNote (n : Note) : decodeNote (encodeNote n) = some n := rfl

lemma decodeNoteList_encode (l : List Note) :
    decodeNoteList (l.map encodeNote) = some l := by
  induction l with
  | nil => rfl
  | cons n rest ih =>
    simp [decodeNoteList, decodeNote_encodeNote, ih]

/-- C6: saving any sequence of notes and loading it back succeeds and
returns an equal sequence — same ids, texts, timestamps, and order. -/
theorem save_load_roundtrip (notes : List Note) :
    (load_notes (save_notes notes)).map decodeNotes = .ok (some notes) := by
  simp [save_notes, load_notes, Except.map, decodeNotes, decodeNoteList_encode]

/-! ### C8 -/

lemma foldl_append_noteBlock (l : List Note) : ∀ h : String,
    l.foldl (fun acc n => acc ++ noteBlock n) h =
      h ++ String.join (l.map noteBlock) := by
  induction l with
  | nil =>
    intro h
    apply String.ext
    simp
  | cons n rest ih =>
    intro h
    show rest.foldl _ (h ++ noteBlock n) = _
    rw [ih (h ++ noteBlock n)]
    apply String.ext
    simp

/-- C8: exporting an empty store produces no file at all; exporting a
non-empty store with no destination writes to the synthesized relative
filename made of the compact current timestamp, and the content is the
header line, the separator, the export-timestamp line, the total-count
line, a blank line, then one block per note in storage order (id and
timestamp line, text line, separator). -/
theorem export_notes_spec :
    (∀ nr nc f, export_notes [] nr nc f = none) ∧
    (∀ (notes : List Note) (nr nc : String), notes ≠ [] →
      export_notes notes nr nc none =
        some ("noty_export_" ++ nc ++ ".txt",
          "NOTY - Exported Notes\n" ++ String.mk (List.replicate 50 '=') ++
            "\n" ++ "Exported on: " ++ nr ++ "\n" ++
            "Total notes: " ++ toString notes.length ++ "\n\n" ++
            String.join (notes.map noteBlock))) := by
  constructor
  · intro nr nc f
    rfl
  · intro notes nr nc hne
    have hemp : notes.isEmpty = false := by
      cases notes with
      | nil => exact absurd rfl hne
      | cons a l => rfl
    simp only [export_notes, hemp, Bool.false_eq_true, if_false]
    rw [foldl_append_noteBlock]

/-- C8 (witness for `export_notes_spec`): a one-note store exported
without a destination at a fixed pair of timestamps. -/
theorem export_notes_spec_witness :
    export_notes [⟨"call mom", "2024-01-01 10:00:00", 2⟩]
        "2024-01-02 10:00:00" "20240102_100000" none =
      some ("noty_export_20240102_100000.txt",
        "NOTY - Exported Notes\n" ++ String.mk (List.replicate 50 '=') ++
          "\n" ++ "Exported on: " ++ "2024-01-02 10:00:00" ++ "\n" ++
          "Total notes: " ++ toString (1 : Nat) ++ "\n\n" ++
          String.join [noteBlock ⟨"call mom", "2024-01-01 10:00:00", 2⟩]) := by
  have h := export_notes_spec.2 [⟨"call mom", "2024-01-01 10:00:00", 2⟩]
    "2024-01-02 10:00:00" "20240102_100000" (by simp)
  rw [h]
  rfl

/-! ### C9 -/

/-- C9: clearing an empty store is a no-op that never prompts; on a
non-empty store a response lowering and stripping to `y`/`yes`
persists the empty sequence, a response normalizing to `n`/`no`/empty
cancels with the store unchanged, and any other response re-prompts
(the run continues with the remaining responses) without clearing. -/
theorem clear_all_notes_spec :
    (∀ rs, clear_all_notes [] rs = ([], .noNotes)) ∧
    (∀ (notes : List Note) (r : String) (rs : List String), notes ≠ [] →
      (pyStrip (pyLower r.toList) = ['y'] ∨
        pyStrip (pyLower r.toList) = ['y', 'e', 's']) →
      clear_all_notes notes (r :: rs) = ([], .cleared)) ∧
    (∀ (notes : List Note) (r : String) (rs : List String), notes ≠ [] →
      (pyStrip (pyLower r.toList) = ['n'] ∨
        pyStrip (pyLower r.toList) = ['n', 'o'] ∨
        pyStrip (pyLower r.toList) = []) →
      clear_all_notes notes (r :: rs) = (notes, .cancelled)) ∧
    (∀ (notes : List Note) (r : String) (rs : List String), notes ≠ [] →
      ¬(pyStrip (pyLower r.toList) = ['y'] ∨
        pyStrip (pyLower r.toList) = ['y', 'e', 's']) →
      ¬(pyStrip (pyLower r.toList) = ['n'] ∨
        pyStrip (pyLower r.toList) = ['n', 'o'] ∨
        pyStrip (pyLower r.toList) = []) →
      clear_all_notes notes (r :: rs) = clear_all_notes notes rs) := by
  have hempf : ∀ (notes : List Note), notes ≠ [] → notes.isEmpty = false := by
    intro notes hne
    cases notes with
    | nil => exact absurd rfl hne
    | cons a l => rfl
  refine ⟨fun rs => rfl, ?_, ?_, ?_⟩
  · intro notes r rs hne hy
    simp only [clear_all_notes, hempf notes hne, Bool.false_eq_true, if_false,
      clearLoop]
    rw [if_pos hy]
  · intro notes r rs hne hn
    simp only [clear_all_notes, hempf notes hne, Bool.false_eq_true, if_false,
      clearLoop]
    rw [if_neg, if_pos hn]
    intro hy
    rcases hy with hy | hy <;> rcases hn with hn | hn | hn <;>
      rw [hy] at hn <;> cases hn
  · intro notes r rs hne hy hn
    simp only [clear_all_notes, hempf notes hne, Bool.false_eq_true, if_false,
      clearLoop]
    rw [if_neg hy, if_neg hn]

/-- C9 (witness for `clear_all_notes_spec`): on a one-note store, the
unrecognized response `maybe` re-prompts and the following `Y ` (with
mixed case and trailing space) clears; a lone empty response
cancels. -/
theorem clear_all_notes_spec_witness :
    clear_all_notes [⟨"a", "t", 1⟩] ["maybe", "Y "] = ([], .cleared) ∧
    clear_all_notes [⟨"a", "t", 1⟩] [""] = ([⟨"a", "t", 1⟩], .cancelled) ∧
    clear_all_notes [] ["maybe"] = ([], .noNotes) := by
  have h := clear_all_notes_spec
  refine ⟨?_, ?_, h.1 ["maybe"]⟩
  · rw [h.2.2.2 [⟨"a", "t", 1⟩] "maybe" ["Y "] (by simp) (by decide) (by decide)]
    exact h.2.1 [⟨"a", "t", 1⟩] "Y " [] (by simp) (by decide)
  · exact h.2.2.1 [⟨"a", "t", 1⟩] "" [] (by simp) (by decide)

/-! ### C10 -/

/-- C10: when the backing file holds syntactically valid JSON, Load
returns the decoded value unchanged, even when it is not an array of
note objects; such content is not normalized, and decoding it as the
note sequence fails downstream. -/
theorem load_notes_passes_valid_json_through :
    (∀ v : Json, load_notes (.valid v) = .ok v) ∧
    load_notes (.valid (.str "oops")) = .ok (.str "oops") ∧
    decodeNotes (.str "oops") = none :=
  ⟨fun _ => rfl, rfl, rfl⟩

end Noty
